import Mathlib

/-!
Verification of the scrollytelling core of the Diagrama Australia site.

The definitions below are a shallow embedding of the JavaScript sources:

* `ScrollytellingEngine` (src/js/scrollytelling-engine.js): section records,
  intersection handling, current-section selection, counter animation,
  scroll-progress computation, and the on/emit event channel.
* `NavigationController` (appended to public/content/galleries.json):
  navigation state, the `isNavigating` guard, history, and URL updates.
* `AnimationController` (src/js/animation-controller.js): reduced-motion
  handling and the CSS counter fallback.
* `ContentManager` (src/js/content-manager.js): media records and the
  `loadMedia`/`loadFallback` retry logic.
* `AccessibilityController` (src/js/accessibility-controller.js): the bounded
  focus history.
* `ProgressIndicator`: the clamped scroll-progress computation.

JavaScript numbers are modelled as rationals; where the source can produce a
non-finite number (division by zero) an explicit value model `JSVal` is used.
Maps keyed by id are modelled as lists in insertion (discovery) order, which
is exactly the iteration order of a JS `Map`.
-/

namespace Diagrama

/-- A section record as created by `discoverSections` in
scrollytelling-engine.js (only the fields relevant to current-section
tracking: id, `isVisible`, `visibilityRatio`). -/
structure SectionRec where
  id : String
  isVisible : Bool
  visibilityRatio : ℚ
  deriving DecidableEq, Repr

/-- An IntersectionObserver callback entry: target section id,
`isIntersecting`, and `intersectionRatio`. -/
structure ObsEntry where
  targetId : String
  isIntersecting : Bool
  intersectionRatio : ℚ
  deriving DecidableEq, Repr

/-- Engine state relevant to current-section tracking: the section map (in
discovery order, as iterated by `this.sections.forEach`) and the id of the
current section (`null` initially). -/
structure EngineState where
  sections : List SectionRec
  currentSection : Option String
  deriving DecidableEq, Repr

/-- One step of the scan in `updateCurrentSection`: a section replaces the
accumulator only when it is visible and its ratio is strictly greater than
the running maximum (which starts at 0). -/
def selectStep (acc : ℚ × Option String) (s : SectionRec) : ℚ × Option String :=
  if s.isVisible = true ∧ acc.1 < s.visibilityRatio then (s.visibilityRatio, some s.id) else acc

/-- The candidate computed by the scan in `updateCurrentSection`
(`maxVisibility = 0; newCurrentSection = null; this.sections.forEach ...`). -/
def selectCurrent (ss : List SectionRec) : Option String :=
  (ss.foldl selectStep ((0 : ℚ), none)).2

/-- `updateCurrentSection`: install the scanned candidate when there is one;
the guard `if (newCurrentSection && ...)` leaves the current section
untouched when the scan produced `null`. -/
def updateCurrentSection (st : EngineState) : EngineState :=
  match selectCurrent st.sections with
  | some c => { st with currentSection := some c }
  | none => st

/-- Write one observer entry into the section map
(`section.isVisible = entry.isIntersecting;
section.visibilityRatio = entry.intersectionRatio`). -/
def setVisibility (ss : List SectionRec) (tid : String) (vis : Bool) (ratio : ℚ) :
    List SectionRec :=
  ss.map fun s =>
    if s.id = tid then { s with isVisible := vis, visibilityRatio := ratio } else s

/-- Process one entry of `handleIntersection`: an entry whose target is not a
known section is skipped (`if (!section) return`); otherwise visibility is
updated and `updateCurrentSection` runs. -/
def handleEntry (st : EngineState) (e : ObsEntry) : EngineState :=
  if st.sections.any (fun s => s.id == e.targetId) then
    updateCurrentSection
      { st with
        sections := setVisibility st.sections e.targetId e.isIntersecting e.intersectionRatio }
  else st

/-- `handleIntersection`: process a callback batch entry by entry
(`entries.forEach`). -/
def handleIntersection (st : EngineState) (batch : List ObsEntry) : EngineState :=
  batch.foldl handleEntry st

/-- Run a sequence of callback batches. -/
def runBatches (st : EngineState) (bs : List (List ObsEntry)) : EngineState :=
  bs.foldl handleIntersection st

/-- The running maximum of visible ratios seeded at `m`; this is the first
component of the scan in `updateCurrentSection`. -/
def maxVisFrom (m : ℚ) : List SectionRec → ℚ
  | [] => m
  | s :: rest =>
      maxVisFrom (if s.isVisible = true ∧ m < s.visibilityRatio then s.visibilityRatio else m) rest

/-- The specification's description of the computed current section: the
first visible section in iteration order attaining the maximal visibility
ratio, provided that maximum is positive; `none` otherwise. -/
def specCurrent (ss : List SectionRec) : Option String :=
  if maxVisFrom 0 ss ≤ 0 then none
  else (ss.find? fun s => s.isVisible && decide (s.visibilityRatio = maxVisFrom 0 ss)).map (·.id)

/-- The seed is a lower bound of the running maximum. -/
lemma le_maxVisFrom (ss : List SectionRec) : ∀ m : ℚ, m ≤ maxVisFrom m ss := by
  induction ss with
  | nil => intro m; simp [maxVisFrom]
  | cons s rest ih =>
    intro m
    simp only [maxVisFrom]
    by_cases h : s.isVisible = true ∧ m < s.visibilityRatio
    · rw [if_pos h]
      exact le_of_lt (lt_of_lt_of_le h.2 (ih _))
    · rw [if_neg h]
      exact ih m

/-- The first component of the scan is the running maximum. -/
lemma foldl_selectStep_fst (ss : List SectionRec) :
    ∀ (m : ℚ) (c : Option String), (ss.foldl selectStep (m, c)).1 = maxVisFrom m ss := by
  induction ss with
  | nil => intro m c; simp [maxVisFrom]
  | cons s rest ih =>
    intro m c
    simp only [List.foldl_cons, maxVisFrom, selectStep]
    by_cases h : s.isVisible = true ∧ m < s.visibilityRatio
    · rw [if_pos h, if_pos h]
      exact ih _ _
    · rw [if_neg h, if_neg h]
      exact ih _ _

/-- Characterisation of the scan: it keeps the seeded candidate when nothing
visible beats the seed, and otherwise returns the first visible section
attaining the running maximum. -/
lemma foldl_selectStep_snd (ss : List SectionRec) :
    ∀ (m : ℚ) (c : Option String),
      (ss.foldl selectStep (m, c)).2 =
        if maxVisFrom m ss ≤ m then c
        else (ss.find? fun s =>
          s.isVisible && decide (s.visibilityRatio = maxVisFrom m ss)).map (·.id) := by
  induction ss with
  | nil => intro m c; simp [maxVisFrom]
  | cons s rest ih =>
    intro m c
    simp only [List.foldl_cons, selectStep]
    by_cases h : s.isVisible = true ∧ m < s.visibilityRatio
    · rw [if_pos h]
      have hmax : maxVisFrom m (s :: rest) = maxVisFrom s.visibilityRatio rest := by
        simp only [maxVisFrom]; rw [if_pos h]
      have hM : s.visibilityRatio ≤ maxVisFrom s.visibilityRatio rest := le_maxVisFrom rest _
      have hmM : m < maxVisFrom s.visibilityRatio rest := lt_of_lt_of_le h.2 hM
      rw [ih, hmax]
      rw [if_neg (not_le.mpr hmM)]
      by_cases hsr : s.visibilityRatio = maxVisFrom s.visibilityRatio rest
      · rw [if_pos (le_of_eq hsr.symm)]
        have hp : (s.isVisible && decide
            (s.visibilityRatio = maxVisFrom s.visibilityRatio rest)) = true := by
          rw [h.1]; simpa using hsr
        simp [List.find?_cons, hp]
      · have hlt : ¬ maxVisFrom s.visibilityRatio rest ≤ s.visibilityRatio := by
          intro hle
          exact hsr (le_antisymm hM hle)
        rw [if_neg hlt]
        have hp : (s.isVisible && decide
            (s.visibilityRatio = maxVisFrom s.visibilityRatio rest)) = false := by
          simp [hsr]
        simp [List.find?_cons, hp]
    · rw [if_neg h]
      have hmax : maxVisFrom m (s :: rest) = maxVisFrom m rest := by
        simp only [maxVisFrom]; rw [if_neg h]
      rw [ih, hmax]
      by_cases hMm : maxVisFrom m rest ≤ m
      · rw [if_pos hMm, if_pos hMm]
      · rw [if_neg hMm, if_neg hMm]
        have hp : (s.isVisible && decide (s.visibilityRatio = maxVisFrom m rest)) = false := by
          by_cases hv : s.isVisible = true
          · have hr : s.visibilityRatio ≤ m := le_of_not_lt (fun hlt => h ⟨hv, hlt⟩)
            have hne : s.visibilityRatio ≠ maxVisFrom m rest := by
              intro heq
              exact hMm (heq ▸ hr)
            simp [hne]
          · simp [hv]
        simp [List.find?_cons, hp]

/-- The scan in `updateCurrentSection` computes exactly the selection the
specification describes. -/
lemma selectCurrent_eq_specCurrent (ss : List SectionRec) :
    selectCurrent ss = specCurrent ss := by
  unfold selectCurrent specCurrent
  exact foldl_selectStep_snd ss 0 none

/-- The tracked current section agrees with the scan whenever the scan
produces a candidate. -/
def currentConsistent (st : EngineState) : Prop :=
  ∀ c : String, selectCurrent st.sections = some c → st.currentSection = some c

/-- `updateCurrentSection` leaves the section map untouched. -/
lemma updateCurrentSection_sections (st : EngineState) :
    (updateCurrentSection st).sections = st.sections := by
  unfold updateCurrentSection
  cases selectCurrent st.sections <;> rfl

/-- After a recomputation the state is consistent. -/
lemma updateCurrentSection_consistent (st : EngineState) :
    currentConsistent (updateCurrentSection st) := by
  intro c hc
  rw [updateCurrentSection_sections] at hc
  simp [updateCurrentSection, hc]

/-- Processing one observer entry preserves consistency. -/
lemma handleEntry_consistent (st : EngineState) (e : ObsEntry)
    (h : currentConsistent st) : currentConsistent (handleEntry st e) := by
  unfold handleEntry
  by_cases hm : (st.sections.any (fun s => s.id == e.targetId)) = true
  · rw [if_pos hm]
    exact updateCurrentSection_consistent _
  · rw [if_neg hm]
    exact h

/-- Processing a batch preserves consistency. -/
lemma handleIntersection_consistent (b : List ObsEntry) :
    ∀ st : EngineState, currentConsistent st → currentConsistent (handleIntersection st b) := by
  induction b with
  | nil => intro st h; exact h
  | cons e rest ih =>
    intro st h
    exact ih _ (handleEntry_consistent st e h)

/-- Processing any sequence of batches preserves consistency. -/
lemma runBatches_consistent (bs : List (List ObsEntry)) :
    ∀ st : EngineState, currentConsistent st → currentConsistent (runBatches st bs) := by
  induction bs with
  | nil => intro st h; exact h
  | cons b rest ih =>
    intro st h
    exact ih _ (handleIntersection_consistent b st h)

/-- No section of the map is visible. -/
def allHidden (ss : List SectionRec) : Prop := ∀ s ∈ ss, s.isVisible = false

/-- The scan never fires over an all-hidden map. -/
lemma foldl_selectStep_of_allHidden (ss : List SectionRec) :
    ∀ (m : ℚ) (c : Option String), allHidden ss → ss.foldl selectStep (m, c) = (m, c) := by
  induction ss with
  | nil => intro m c _; rfl
  | cons s rest ih =>
    intro m c h
    have hs : s.isVisible = false := h s (List.mem_cons_self s rest)
    have hstep : selectStep (m, c) s = (m, c) := by
      unfold selectStep
      rw [if_neg]
      intro hcon
      rw [hs] at hcon
      exact Bool.false_ne_true hcon.1
    rw [List.foldl_cons, hstep]
    exact ih m c (fun t ht => h t (List.mem_cons_of_mem s ht))

/-- Over an all-hidden map the scan produces `none`. -/
lemma selectCurrent_of_allHidden (ss : List SectionRec) (h : allHidden ss) :
    selectCurrent ss = none := by
  unfold selectCurrent
  rw [foldl_selectStep_of_allHidden ss 0 none h]

/-- A recomputation with no visible section keeps the current section at its
previous value (it is a no-op on the whole state). -/
lemma updateCurrentSection_of_allHidden (st : EngineState) (h : allHidden st.sections) :
    updateCurrentSection st = st := by
  unfold updateCurrentSection
  rw [selectCurrent_of_allHidden st.sections h]

/-- Writing a non-intersecting entry keeps the map all-hidden. -/
lemma setVisibility_allHidden (ss : List SectionRec) (tid : String) (ratio : ℚ)
    (h : allHidden ss) : allHidden (setVisibility ss tid false ratio) := by
  intro t ht
  unfold setVisibility at ht
  rcases List.mem_map.mp ht with ⟨s, hs, hmap⟩
  by_cases hid : s.id = tid
  · rw [if_pos hid] at hmap
    rw [← hmap]
  · rw [if_neg hid] at hmap
    rw [← hmap]
    exact h s hs

/-- A non-intersecting entry over an all-hidden state changes neither the
hiddenness of the map nor the current section. -/
lemma handleEntry_hidden (st : EngineState) (e : ObsEntry)
    (h1 : allHidden st.sections) (h2 : e.isIntersecting = false) :
    allHidden (handleEntry st e).sections ∧
      (handleEntry st e).currentSection = st.currentSection := by
  unfold handleEntry
  by_cases hm : (st.sections.any (fun s => s.id == e.targetId)) = true
  · rw [if_pos hm]
    have hall : allHidden (setVisibility st.sections e.targetId e.isIntersecting
        e.intersectionRatio) := by
      rw [h2]
      exact setVisibility_allHidden st.sections e.targetId e.intersectionRatio h1
    rw [updateCurrentSection_of_allHidden _ hall]
    exact ⟨hall, rfl⟩
  · rw [if_neg hm]
    exact ⟨h1, rfl⟩

/-- A batch of non-intersecting entries over an all-hidden state leaves the
current section unchanged. -/
lemma handleIntersection_hidden (b : List ObsEntry) :
    ∀ st : EngineState, allHidden st.sections → (∀ e ∈ b, e.isIntersecting = false) →
      allHidden (handleIntersection st b).sections ∧
        (handleIntersection st b).currentSection = st.currentSection := by
  induction b with
  | nil => intro st h1 _; exact ⟨h1, rfl⟩
  | cons e rest ih =>
    intro st h1 h2
    have he : e.isIntersecting = false := h2 e (List.mem_cons_self e rest)
    have hstep := handleEntry_hidden st e h1 he
    have hrest := ih (handleEntry st e) hstep.1
      (fun t ht => h2 t (List.mem_cons_of_mem e ht))
    exact ⟨hrest.1, hrest.2.trans hstep.2⟩

/-- Batches of non-intersecting entries over an all-hidden state leave the
current section unchanged. -/
lemma runBatches_hidden (bs : List (List ObsEntry)) :
    ∀ st : EngineState, allHidden st.sections →
      (∀ b ∈ bs, ∀ e ∈ b, e.isIntersecting = false) →
      allHidden (runBatches st bs).sections ∧
        (runBatches st bs).currentSection = st.currentSection := by
  induction bs with
  | nil => intro st h1 _; exact ⟨h1, rfl⟩
  | cons b rest ih =>
    intro st h1 h2
    have hstep := handleIntersection_hidden b st h1 (h2 b (List.mem_cons_self b rest))
    have hrest := ih (handleIntersection st b) hstep.1
      (fun b' hb' => h2 b' (List.mem_cons_of_mem b hb'))
    exact ⟨hrest.1, hrest.2.trans hstep.2⟩

/-- C1: over any sequence of intersection-observer callback batches, the
computed current section is the visible section with the strictly greatest
visibility ratio — ties broken in favour of the first section in iteration
order, via a strict greater-than scan against a running maximum starting at
0 (`selectCurrent ss = specCurrent ss`, and whenever the scan yields a
section the tracked current section equals it); and when no section is
visible, a recomputation keeps the current section at its previous value, so
a run that never sees a visible section never changes it. -/
theorem c1_current_section_selection (s0 : EngineState) (bs : List (List ObsEntry))
    (hc : currentConsistent s0) :
    (∀ ss : List SectionRec, selectCurrent ss = specCurrent ss) ∧
    currentConsistent (runBatches s0 bs) ∧
    (∀ st : EngineState, allHidden st.sections → updateCurrentSection st = st) ∧
    (allHidden s0.sections → (∀ b ∈ bs, ∀ e ∈ b, e.isIntersecting = false) →
      (runBatches s0 bs).currentSection = s0.currentSection) :=
  ⟨selectCurrent_eq_specCurrent,
   runBatches_consistent bs s0 hc,
   updateCurrentSection_of_allHidden,
   fun h1 h2 => (runBatches_hidden bs s0 h1 h2).2⟩

/-- A concrete three-section page used by the C1 witness. -/
def c1DemoState : EngineState :=
  { sections :=
      [ { id := "intro", isVisible := false, visibilityRatio := 0 },
        { id := "problem", isVisible := false, visibilityRatio := 0 },
        { id := "solution", isVisible := false, visibilityRatio := 0 } ],
    currentSection := none }

/-- A concrete callback batch: "intro" at ratio 1/10, "problem" at 3/5. -/
def c1DemoBatches : List (List ObsEntry) :=
  [ [ { targetId := "intro", isIntersecting := true, intersectionRatio := mkRat 1 10 },
      { targetId := "problem", isIntersecting := true, intersectionRatio := mkRat 3 5 } ] ]

/-- Witness for C1: on the concrete page the tracker ends with "problem" (the
60%-visible section) as the current section. -/
theorem c1_current_section_selection_witness :
    (runBatches c1DemoState c1DemoBatches).currentSection = some "problem" :=
  (c1_current_section_selection c1DemoState c1DemoBatches
      (fun c hc => by
        rw [show selectCurrent c1DemoState.sections = none from rfl] at hc
        exact Option.noConfusion hc)).2.1
    "problem" (by decide)

/-- An animation entry as created by `discoverSectionAnimations`: element
skipped, animation type, delay, duration and the `triggered` flag (initially
false). -/
structure AnimationEntry where
  type : String
  delay : ℚ
  duration : ℚ
  triggered : Bool
  deriving DecidableEq, Repr

/-- `triggerSectionAnimations`: for each entry of the section, if it is not
yet triggered, schedule its animation (a `setTimeout` after `delay`) and set
`triggered := true` immediately — at scheduling time, not when the scheduled
animation later runs. The result is the updated entry list together with a
parallel list of flags recording which entries were scheduled by this call
(`triggerAnimation` itself only adds CSS classes; it never touches
`triggered`). -/
def triggerSectionAnimations (anims : List AnimationEntry) :
    List AnimationEntry × List Bool :=
  (anims.map fun a => if a.triggered then a else { a with triggered := true },
   anims.map fun a => !a.triggered)

/-- Re-fire the section's animation observer `k` times (each viewport
re-entry calls `triggerSectionAnimations` again); collect the scheduling
flags of every fire. -/
def runFires : List AnimationEntry → ℕ → List AnimationEntry × List (List Bool)
  | anims, 0 => (anims, [])
  | anims, k + 1 =>
      let fired := triggerSectionAnimations anims
      let rest := runFires fired.1 k
      (rest.1, fired.2 :: rest.2)

/-- How many of the recorded fires scheduled the entry at position `i`. -/
def schedCount (i : ℕ) (ls : List (List Bool)) : ℕ :=
  (ls.filter fun l => l.getD i false).length

/-- Marking helper: the per-entry effect of `triggerSectionAnimations`. -/
def markTriggered (a : AnimationEntry) : AnimationEntry :=
  if a.triggered then a else { a with triggered := true }

lemma markTriggered_triggered (a : AnimationEntry) : (markTriggered a).triggered = true := by
  unfold markTriggered
  by_cases h : a.triggered = true
  · rw [if_pos h]; exact h
  · rw [if_neg h]

lemma triggerSectionAnimations_fst (anims : List AnimationEntry) :
    (triggerSectionAnimations anims).1 = anims.map markTriggered := rfl

/-- Every entry is in the triggered state after one fire. -/
lemma allTriggered_after_fire (anims : List AnimationEntry) :
    ∀ a ∈ (triggerSectionAnimations anims).1, a.triggered = true := by
  intro a ha
  rw [triggerSectionAnimations_fst] at ha
  rcases List.mem_map.mp ha with ⟨b, _, hb⟩
  rw [← hb]
  exact markTriggered_triggered b

/-- Over an already fully triggered list, a fire changes nothing. -/
lemma fire_fst_of_allTriggered (anims : List AnimationEntry)
    (h : ∀ a ∈ anims, a.triggered = true) :
    (triggerSectionAnimations anims).1 = anims := by
  rw [triggerSectionAnimations_fst]
  calc anims.map markTriggered = anims.map id := by
        apply List.map_congr_left
        intro a ha
        unfold markTriggered
        rw [if_pos (h a ha)]
        rfl
    _ = anims := List.map_id anims

/-- Over an already fully triggered list, a fire schedules nothing. -/
lemma fire_snd_of_allTriggered (anims : List AnimationEntry)
    (h : ∀ a ∈ anims, a.triggered = true) :
    (triggerSectionAnimations anims).2 = List.replicate anims.length false := by
  show anims.map (fun a => !a.triggered) = _
  calc anims.map (fun a => !a.triggered) = anims.map (fun _ => false) := by
        apply List.map_congr_left
        intro a ha
        rw [h a ha]
        rfl
    _ = List.replicate anims.length false := List.map_const' anims false

/-- Over a fully triggered list, any number of further fires leaves the list
unchanged and schedules nothing. -/
lemma runFires_of_allTriggered (k : ℕ) :
    ∀ anims : List AnimationEntry, (∀ a ∈ anims, a.triggered = true) →
      runFires anims k = (anims, List.replicate k (List.replicate anims.length false)) := by
  induction k with
  | zero => intro anims _; rfl
  | succ k ih =>
    intro anims h
    simp only [runFires]
    rw [fire_fst_of_allTriggered anims h, fire_snd_of_allTriggered anims h, ih anims h,
      List.replicate_succ]

/-- Closed form for a positive number of fires: the first fire schedules
exactly the initially untriggered entries and marks everything; later fires
schedule nothing. -/
lemma runFires_closed (k : ℕ) (anims : List AnimationEntry) :
    runFires anims (k + 1) =
      (anims.map markTriggered,
       (anims.map fun a => !a.triggered)
         :: List.replicate k (List.replicate anims.length false)) := by
  have hall : ∀ a ∈ anims.map markTriggered, a.triggered = true := by
    intro a ha
    rcases List.mem_map.mp ha with ⟨b, _, hb⟩
    rw [← hb]
    exact markTriggered_triggered b
  simp only [runFires]
  rw [triggerSectionAnimations_fst, runFires_of_allTriggered k _ hall]
  simp [triggerSectionAnimations]

/-- Position lookup in an all-false flag list is false. -/
lemma getD_replicate_false (n i : ℕ) : (List.replicate n false).getD i false = false := by
  rw [List.getD_eq_getElem?_getD, List.getElem?_replicate]
  split <;> rfl

/-- C2: the `triggered` flag of every animation entry is monotone and drives
at-most-once scheduling. Over any number `k` of re-fires of the section's
intersection callback: each entry position is scheduled at most once in
total; an entry whose flag is true keeps it true; a fire schedules exactly
the entries whose flag was false; and a scheduled entry's flag is already
true in the state produced by that same fire (set at scheduling time, not at
animation completion). -/
theorem c2_triggered_at_most_once (anims : List AnimationEntry) (k i : ℕ) :
    schedCount i (runFires anims k).2 ≤ 1 ∧
    ((anims[i]?).map AnimationEntry.triggered = some true →
      (((runFires anims k).1)[i]?).map AnimationEntry.triggered = some true) ∧
    ((triggerSectionAnimations anims).2.getD i false = true ↔
      (anims[i]?).map AnimationEntry.triggered = some false) ∧
    ((triggerSectionAnimations anims).2.getD i false = true →
      (((triggerSectionAnimations anims).1)[i]?).map AnimationEntry.triggered = some true) := by
  refine ⟨?_, ?_, ?_, ?_⟩
  · cases k with
    | zero => simp [runFires, schedCount]
    | succ k =>
      rw [runFires_closed]
      unfold schedCount
      have hnil : (List.replicate k (List.replicate anims.length false)).filter
          (fun l => l.getD i false) = [] := by
        apply List.filter_eq_nil_iff.mpr
        intro l hl
        rw [List.eq_of_mem_replicate hl, getD_replicate_false]
        simp
      simp only [List.filter_cons, hnil]
      split <;> simp
  · intro h
    cases k with
    | zero => exact h
    | succ k =>
      rw [runFires_closed]
      cases ha : anims[i]? with
      | none => rw [ha] at h; simp at h
      | some a => simp [List.getElem?_map, ha, markTriggered_triggered]
  · rw [show (triggerSectionAnimations anims).2 = anims.map fun a => !a.triggered from rfl,
      List.getD_eq_getElem?_getD, List.getElem?_map]
    cases ha : anims[i]? with
    | none => simp
    | some a => cases ht : a.triggered <;> simp [ht]
  · intro hsch
    rw [triggerSectionAnimations_fst, List.getElem?_map]
    cases ha : anims[i]? with
    | none =>
      exfalso
      rw [show (triggerSectionAnimations anims).2 = anims.map fun a => !a.triggered from rfl,
        List.getD_eq_getElem?_getD, List.getElem?_map, ha] at hsch
      simp at hsch
    | some a => simp [ha, markTriggered_triggered]

/-- Two concrete animation entries used by the C2 witness: a not yet
triggered fade-up and an already triggered counter. -/
def c2DemoAnims : List AnimationEntry :=
  [ { type := "fade-up", delay := 0, duration := mkRat 4 5, triggered := false },
    { type := "counter", delay := 1, duration := 2, triggered := true } ]

/-- Witness for C2: over three fires the fade-up entry is scheduled at most
once (exactly by the first fire, since its flag was false), and the already
triggered counter entry keeps its flag. -/
theorem c2_triggered_at_most_once_witness :
    schedCount 0 (runFires c2DemoAnims 3).2 ≤ 1 ∧
    (triggerSectionAnimations c2DemoAnims).2.getD 0 false = true ∧
    (((runFires c2DemoAnims 3).1)[1]?).map AnimationEntry.triggered = some true :=
  ⟨(c2_triggered_at_most_once c2DemoAnims 3 0).1,
   (c2_triggered_at_most_once c2DemoAnims 3 0).2.2.1.mpr (by decide),
   (c2_triggered_at_most_once c2DemoAnims 3 1).2.1 (by decide)⟩

/-- A media record as discovered by content-manager.js: id, current source,
optional fallback source, and the `loading`/`loaded`/`error` flags. -/
structure MediaRec where
  id : String
  src : String
  fallbackSrc : Option String
  loading : Bool
  loaded : Bool
  error : Bool
  deriving DecidableEq, Repr

/-- `loadMedia` together with `loadFallback`, which are mutually recursive in
the source; embedded with a fuel parameter because the source recursion is
unbounded when every load fails. `ld` says whether loading a given source
URL succeeds. Returns the final record and the number of load attempts
performed. Faithful details of the source: the guard returns when `loading`
or `loaded` is set; `loading` is set for the duration of an attempt; on
success `loaded := true`; on failure `error := true` and, when a
`fallbackSrc` exists, `loadFallback` sets `src` to the fallback and calls
`loadMedia` again. `loadMedia` catches every error and never rethrows, so
the catch block in `loadFallback` (which would restore the original source)
is unreachable, and `fallbackSrc` is never cleared. -/
def loadMedia (ld : String → Bool) : ℕ → MediaRec → MediaRec × ℕ
  | 0, m => (m, 0)
  | fuel + 1, m =>
    if m.loading || m.loaded then (m, 0)
    else
      if ld m.src then
        ({ m with loading := false, loaded := true }, 1)
      else
        let m2 := { m with loading := false, error := true }
        match m.fallbackSrc with
        | some fb =>
            let r := loadMedia ld fuel { m2 with src := fb }
            (r.1, r.2 + 1)
        | none => (m2, 1)

/-- When every load fails and a fallback is configured, each recursion level
performs one more attempt: the attempt count equals the fuel, i.e. it is
unbounded. -/
lemma loadMedia_allFail (fb : String) :
    ∀ (fuel : ℕ) (m : MediaRec), m.loading = false → m.loaded = false →
      m.fallbackSrc = some fb → (loadMedia (fun _ => false) fuel m).2 = fuel := by
  intro fuel
  induction fuel with
  | zero => intro m _ _ _; rfl
  | succ fuel ih =>
    intro m h1 h2 h3
    show (loadMedia (fun _ => false) (fuel + 1) m).2 = fuel + 1
    unfold loadMedia
    rw [h1, h2]
    simp only [Bool.or_self, Bool.false_eq_true, if_false, h3]
    have := ih { m with src := fb, loading := false, error := true } rfl h2 h3
    rw [h2, h3] at this
    simp [this]

/-- A media record whose primary and fallback sources both fail to load. -/
def c3BadRec : MediaRec :=
  { id := "m1", src := "bad.jpg", fallbackSrc := some "alsobad.jpg",
    loading := false, loaded := false, error := false }

/-- A media record whose primary source fails and whose fallback loads. -/
def c3GoodRec : MediaRec :=
  { id := "m2", src := "bad.jpg", fallbackSrc := some "good.jpg",
    loading := false, loaded := false, error := false }

/-- Loader for the C3 scenario: only good.jpg loads successfully. -/
def c3Loader (s : String) : Bool := s == "good.jpg"

/-- C3 (code bug): when both the primary and the fallback source fail, the
number of load attempts equals the supplied fuel — `loadMedia` and
`loadFallback` keep re-entering each other because `loadMedia` never
rethrows and `fallbackSrc` is never cleared, so the retry count is
unbounded instead of capped at two; in particular three attempts happen
with fuel 3. When the fallback does load, the record ends loaded after
exactly two attempts, matching the specification's example scenario. -/
theorem c3_fallback_retry_unbounded :
    (∀ fuel : ℕ, (loadMedia (fun _ => false) fuel c3BadRec).2 = fuel) ∧
    (loadMedia c3Loader 2 c3GoodRec).1.loaded = true ∧
    (loadMedia c3Loader 2 c3GoodRec).2 = 2 ∧
    2 < (loadMedia (fun _ => false) 3 c3BadRec).2 := by
  refine ⟨?_, ?_, ?_, ?_⟩
  · intro fuel
    exact loadMedia_allFail "alsobad.jpg" fuel c3BadRec rfl rfl rfl
  · decide
  · decide
  · decide

/-- A navigable section discovered by `NavigationController.discoverSections`
(id and ordinal index). -/
structure NavSection where
  id : String
  index : ℕ
  deriving DecidableEq, Repr

/-- One navigation history entry: from-index, to-index, timestamp. -/
structure NavHistoryEntry where
  fromIndex : ℕ
  toIndex : ℕ
  timestamp : ℕ
  deriving DecidableEq, Repr

/-- NavigationController state: the section list in discovery order,
`currentSectionIndex`, the `isNavigating` guard, the navigation history,
the URL hash, the `options.updateURL` flag, the navigation events
dispatched so far, and — while a navigation is in flight — the destination
and URL flag captured by the scroll promise continuation. -/
structure NavState where
  sections : List NavSection
  currentSectionIndex : ℕ
  isNavigating : Bool
  navigationHistory : List NavHistoryEntry
  urlHash : Option String
  updateURLOpt : Bool
  eventLog : List String
  pending : Option (NavSection × Bool)
  deriving DecidableEq, Repr

/-- `navigateToSection(sectionId, updateURL)` up to the start of the scroll
animation: dropped while `isNavigating`; a warning plus no-op when the id is
unknown; otherwise it sets the guard, updates the index, appends a history
entry, and captures the destination for the scroll continuation. -/
def navigateToSection (st : NavState) (sectionId : String) (updateURL : Bool)
    (now : ℕ) : NavState :=
  if st.isNavigating then st
  else
    match st.sections.find? (fun s => s.id == sectionId) with
    | none => st
    | some sec =>
        { st with
          isNavigating := true,
          currentSectionIndex := sec.index,
          navigationHistory := st.navigationHistory ++
            [{ fromIndex := st.currentSectionIndex, toIndex := sec.index, timestamp := now }],
          pending := some (sec, updateURL) }

/-- The continuation run when the scroll promise resolves: update the URL (if
enabled), dispatch the navigation event, clear the guard. This is the only
place that sets `isNavigating` back to false. -/
def completeNavigation (st : NavState) : NavState :=
  match st.pending with
  | none => st
  | some (sec, updateURL) =>
      { st with
        urlHash := if updateURL && st.updateURLOpt then some sec.id else st.urlHash,
        eventLog := st.eventLog ++ ["navigate"],
        isNavigating := false,
        pending := none }

/-- `navigateNext`: bounds-checked step to the next section. -/
def navigateNext (st : NavState) (now : ℕ) : NavState :=
  if st.currentSectionIndex < st.sections.length - 1 then
    match st.sections[st.currentSectionIndex + 1]? with
    | some nextSection => navigateToSection st nextSection.id true now
    | none => st
  else st

/-- `navigatePrevious`: bounds-checked step to the previous section. -/
def navigatePrevious (st : NavState) (now : ℕ) : NavState :=
  if 0 < st.currentSectionIndex then
    match st.sections[st.currentSectionIndex - 1]? with
    | some prevSection => navigateToSection st prevSection.id true now
    | none => st
  else st

/-- A navigation request issued by the user (keyboard, link click, hash
change), with its timestamp. -/
inductive NavRequest where
  | goNext : ℕ → NavRequest
  | goPrevious : ℕ → NavRequest
  | goTo : String → ℕ → NavRequest
  deriving DecidableEq, Repr

/-- Dispatch one navigation request. -/
def navStep (st : NavState) : NavRequest → NavState
  | NavRequest.goNext now => navigateNext st now
  | NavRequest.goPrevious now => navigatePrevious st now
  | NavRequest.goTo sid now => navigateToSection st sid true now

/-- Process a sequence of navigation requests. -/
def runRequests (st : NavState) (rs : List NavRequest) : NavState :=
  rs.foldl navStep st

lemma navigateToSection_of_navigating (st : NavState) (sid : String) (u : Bool)
    (now : ℕ) (h : st.isNavigating = true) : navigateToSection st sid u now = st := by
  unfold navigateToSection
  rw [if_pos h]

lemma navigateNext_of_navigating (st : NavState) (now : ℕ)
    (h : st.isNavigating = true) : navigateNext st now = st := by
  unfold navigateNext
  by_cases hlt : st.currentSectionIndex < st.sections.length - 1
  · rw [if_pos hlt]
    cases st.sections[st.currentSectionIndex + 1]? with
    | none => rfl
    | some s => exact navigateToSection_of_navigating st s.id true now h
  · rw [if_neg hlt]

lemma navigatePrevious_of_navigating (st : NavState) (now : ℕ)
    (h : st.isNavigating = true) : navigatePrevious st now = st := by
  unfold navigatePrevious
  by_cases hlt : 0 < st.currentSectionIndex
  · rw [if_pos hlt]
    cases st.sections[st.currentSectionIndex - 1]? with
    | none => rfl
    | some s => exact navigateToSection_of_navigating st s.id true now h
  · rw [if_neg hlt]

lemma navStep_of_navigating (st : NavState) (r : NavRequest)
    (h : st.isNavigating = true) : navStep st r = st := by
  cases r with
  | goNext now => exact navigateNext_of_navigating st now h
  | goPrevious now => exact navigatePrevious_of_navigating st now h
  | goTo sid now => exact navigateToSection_of_navigating st sid true now h

lemma runRequests_of_navigating (rs : List NavRequest) :
    ∀ st : NavState, st.isNavigating = true → runRequests st rs = st := by
  induction rs with
  | nil => intro st _; rfl
  | cons r rest ih =>
    intro st h
    show runRequests (navStep st r) rest = st
    rw [navStep_of_navigating st r h]
    exact ih st h

/-- C4: while a navigation is in flight (`isNavigating`), every further
go-to-next/previous/specific request is dropped: the whole state — hence the
in-flight navigation's pending destination, the history log and the URL —
is unchanged, so the eventual completion produces exactly the state the
first navigation would have produced; the guard stays up across any number
of dropped requests, and only the completion continuation takes it back
down. -/
theorem c4_navigating_guard (st : NavState) (rs : List NavRequest)
    (h : st.isNavigating = true) :
    runRequests st rs = st ∧
    completeNavigation (runRequests st rs) = completeNavigation st ∧
    (runRequests st rs).isNavigating = true ∧
    (∀ p, st.pending = some p → (completeNavigation st).isNavigating = false) := by
  have hrun := runRequests_of_navigating rs st h
  refine ⟨hrun, by rw [hrun], by rw [hrun]; exact h, ?_⟩
  intro p hp
  unfold completeNavigation
  rw [hp]

/-- A concrete in-flight state for the C4 witness: navigation to "problem"
is pending and two more requests arrive. -/
def c4DemoState : NavState :=
  { sections := [{ id := "intro", index := 0 }, { id := "problem", index := 1 }],
    currentSectionIndex := 1, isNavigating := true,
    navigationHistory := [{ fromIndex := 0, toIndex := 1, timestamp := 5 }],
    urlHash := none, updateURLOpt := true, eventLog := [],
    pending := some ({ id := "problem", index := 1 }, true) }

/-- Requests issued while the C4 demo navigation is in flight. -/
def c4DemoRequests : List NavRequest :=
  [NavRequest.goNext 6, NavRequest.goTo "intro" 7]

/-- Witness for C4: both requests arriving during the demo navigation are
dropped and completion still lands on "problem". -/
theorem c4_navigating_guard_witness :
    runRequests c4DemoState c4DemoRequests = c4DemoState ∧
    completeNavigation (runRequests c4DemoState c4DemoRequests) =
      completeNavigation c4DemoState ∧
    (runRequests c4DemoState c4DemoRequests).isNavigating = true ∧
    (∀ p, c4DemoState.pending = some p →
      (completeNavigation c4DemoState).isNavigating = false) :=
  c4_navigating_guard c4DemoState c4DemoRequests (by decide)

/-- C6: navigating to an unknown section id is a silent no-op — the returned
state is the input state, so no history entry is recorded, the index, URL
and `isNavigating` are untouched, and no navigation event is dispatched
(the embedding is total, mirroring that the source only logs a warning and
returns). -/
theorem c6_unknown_section_noop (st : NavState) (sid : String) (u : Bool) (now : ℕ)
    (h : st.sections.find? (fun s => s.id == sid) = none) :
    navigateToSection st sid u now = st := by
  unfold navigateToSection
  by_cases hn : st.isNavigating = true
  · rw [if_pos hn]
  · rw [if_neg hn, h]

/-- An idle two-section state for the C6 and C9 witnesses. -/
def c6DemoState : NavState :=
  { sections := [{ id := "intro", index := 0 }, { id := "problem", index := 1 }],
    currentSectionIndex := 0, isNavigating := false, navigationHistory := [],
    urlHash := none, updateURLOpt := true, eventLog := [], pending := none }

/-- Witness for C6: navigating to the unknown id "missing" leaves the demo
state untouched. -/
theorem c6_unknown_section_noop_witness :
    navigateToSection c6DemoState "missing" true 9 = c6DemoState :=
  c6_unknown_section_noop c6DemoState "missing" true 9 (by decide)

/-- One full navigation: request plus completion of its scroll promise. -/
def navCycle (st : NavState) (sid : String) (now : ℕ) : NavState :=
  completeNavigation (navigateToSection st sid true now)

/-- A successful navigation cycle appends exactly one history entry, returns
to idle, and leaves the section list alone. -/
lemma navCycle_success (st : NavState) (sid : String) (now : ℕ) (sec : NavSection)
    (h1 : st.isNavigating = false)
    (h2 : st.sections.find? (fun s => s.id == sid) = some sec) :
    (navCycle st sid now).navigationHistory.length = st.navigationHistory.length + 1 ∧
    (navCycle st sid now).isNavigating = false ∧
    (navCycle st sid now).sections = st.sections := by
  unfold navCycle navigateToSection
  rw [if_neg (by rw [h1]; exact Bool.false_ne_true), h2]
  simp [completeNavigation]

/-- Drive the C9 scenario: starting from the idle demo state, alternate
successful navigations between "problem" and "intro", completing each one. -/
def c9Run : ℕ → NavState
  | 0 => c6DemoState
  | n + 1 => navCycle (c9Run n) (if n % 2 = 0 then "problem" else "intro") n

/-- After `n` completed navigations the history holds exactly `n` entries:
nothing is ever dropped. -/
lemma c9Run_length : ∀ n : ℕ, (c9Run n).navigationHistory.length = n ∧
    (c9Run n).isNavigating = false ∧ (c9Run n).sections = c6DemoState.sections := by
  intro n
  induction n with
  | zero => exact ⟨rfl, rfl, rfl⟩
  | succ n ih =>
    obtain ⟨hlen, hnav, hsec⟩ := ih
    have hstep : ∀ (sid : String) (sec : NavSection),
        (c9Run n).sections.find? (fun s => s.id == sid) = some sec →
        (navCycle (c9Run n) sid n).navigationHistory.length = n + 1 ∧
        (navCycle (c9Run n) sid n).isNavigating = false ∧
        (navCycle (c9Run n) sid n).sections = c6DemoState.sections := by
      intro sid sec hf
      have h := navCycle_success (c9Run n) sid n sec hnav hf
      exact ⟨by rw [h.1, hlen], h.2.1, by rw [h.2.2, hsec]⟩
    by_cases hpar : n % 2 = 0
    · simp only [c9Run, hpar, if_pos]
      exact hstep "problem" { id := "problem", index := 1 } (by rw [hsec]; decide)
    · simp only [c9Run, hpar, if_neg, if_false]
      exact hstep "intro" { id := "intro", index := 0 } (by rw [hsec]; decide)

/-- C9 counterexample: after 51 completed navigations the navigation history
holds 51 entries — the source never trims `navigationHistory`, so the
claimed 50-entry bound is violated. -/
theorem c9_history_bound_counterexample :
    50 < (c9Run 51).navigationHistory.length := by
  rw [(c9Run_length 51).1]
  decide

/-- One entry of the accessibility controller's focus history. -/
structure FocusEntry where
  elementId : String
  timestamp : ℕ
  sectionId : Option String
  deriving DecidableEq, Repr

/-- `handleFocus` in accessibility-controller.js: push the entry, then drop
the oldest while the history exceeds 50 entries. -/
def handleFocus (fh : List FocusEntry) (e : FocusEntry) : List FocusEntry :=
  let fh1 := fh ++ [e]
  if 50 < fh1.length then fh1.tail else fh1

/-- C9 amended: the 50-entry sliding-window bound holds for the
accessibility controller's focus history (push, then drop the oldest above
50), while the navigation history is unbounded — every successful
navigation appends one entry and nothing is ever dropped. -/
theorem c9_history_bounds (fh : List FocusEntry) (e : FocusEntry) (st : NavState)
    (sid : String) (now : ℕ) (sec : NavSection)
    (hfh : fh.length ≤ 50)
    (h1 : st.isNavigating = false)
    (h2 : st.sections.find? (fun s => s.id == sid) = some sec) :
    (handleFocus fh e).length ≤ 50 ∧
    (fh.length = 50 → handleFocus fh e = (fh ++ [e]).tail) ∧
    (navigateToSection st sid true now).navigationHistory =
      st.navigationHistory ++
        [{ fromIndex := st.currentSectionIndex, toIndex := sec.index, timestamp := now }] := by
  refine ⟨?_, ?_, ?_⟩
  · unfold handleFocus
    by_cases h : 50 < (fh ++ [e]).length
    · rw [if_pos h]
      simp only [List.length_tail, List.length_append, List.length_cons, List.length_nil]
      omega
    · rw [if_neg h]
      simp only [List.length_append, List.length_cons, List.length_nil] at h ⊢
      omega
  · intro h50
    unfold handleFocus
    rw [if_pos (by simp [h50])]
  · unfold navigateToSection
    rw [if_neg (by rw [h1]; exact Bool.false_ne_true), h2]

/-- A full 50-entry focus history for the C9 witness. -/
def c9DemoFocus : List FocusEntry :=
  List.replicate 50 { elementId := "btn", timestamp := 0, sectionId := none }

/-- A fresh focus entry for the C9 witness. -/
def c9DemoEntry : FocusEntry :=
  { elementId := "link", timestamp := 1, sectionId := some "intro" }

/-- Witness for the amended C9: pushing onto a full 50-entry focus history
stays at 50 entries and drops the oldest, while one successful navigation
from the idle demo state appends exactly one history entry. -/
theorem c9_history_bounds_witness :
    (handleFocus c9DemoFocus c9DemoEntry).length ≤ 50 ∧
    (c9DemoFocus.length = 50 →
      handleFocus c9DemoFocus c9DemoEntry = (c9DemoFocus ++ [c9DemoEntry]).tail) ∧
    (navigateToSection c6DemoState "problem" true 3).navigationHistory =
      c6DemoState.navigationHistory ++
        [{ fromIndex := c6DemoState.currentSectionIndex, toIndex := 1, timestamp := 3 }] :=
  c9_history_bounds c9DemoFocus c9DemoEntry c6DemoState "problem" 3
    { id := "problem", index := 1 } (by decide) (by decide) (by decide)

/-- A JavaScript number that may be non-finite: the engine's `updateProgress`
divides by `scrollHeight - innerHeight` without guarding against zero. -/
inductive JSVal where
  | num : ℚ → JSVal
  | nan : JSVal
  | posInf : JSVal
  | negInf : JSVal
  deriving DecidableEq, Repr

/-- JavaScript division: finite quotient for a nonzero divisor; `0/0` is NaN;
a nonzero value divided by zero is a signed infinity. -/
def jsDiv (a b : ℚ) : JSVal :=
  if b = 0 then
    if a = 0 then JSVal.nan
    else if 0 < a then JSVal.posInf else JSVal.negInf
  else JSVal.num (a / b)

/-- `Math.min(x, 1)`: NaN propagates, infinities compare as expected. -/
def jsMin1 : JSVal → JSVal
  | JSVal.num q => JSVal.num (min q 1)
  | JSVal.nan => JSVal.nan
  | JSVal.posInf => JSVal.num 1
  | JSVal.negInf => JSVal.negInf

/-- `updateProgress` in scrollytelling-engine.js:
`this.scrollProgress = Math.min(scrollTop / scrollHeight, 1)` where
`scrollHeight = document.documentElement.scrollHeight - window.innerHeight`
— there is no lower clamp and no degenerate-case guard. -/
def engineUpdateProgress (scrollTop docScrollHeight innerHeight : ℚ) : JSVal :=
  jsMin1 (jsDiv scrollTop (docScrollHeight - innerHeight))

/-- Clamp to the unit interval. -/
def clamp01 (q : ℚ) : ℚ := min (max q 0) 1

/-- The claimed page scroll fraction:
`clamp(scrollTop / (documentHeight - viewportHeight), 0, 1)`, 0 in the
degenerate case where the document is no taller than the viewport. -/
def specScrollFraction (scrollTop docScrollHeight innerHeight : ℚ) : ℚ :=
  if docScrollHeight - innerHeight ≤ 0 then 0
  else clamp01 (scrollTop / (docScrollHeight - innerHeight))

/-- `lerp` in the ProgressIndicator. -/
def lerp (start target factor : ℚ) : ℚ := start + (target - start) * factor

/-- `calculateScrollProgress` in the ProgressIndicator: return 0 when
`scrollHeight <= 0`; otherwise clamp the fresh fraction to [0,1] and, with
smoothing on (the default), move the stored value 10% toward it. -/
def calculateScrollProgress (prev : ℚ) (smoothing : Bool)
    (scrollTop docScrollHeight innerHeight : ℚ) : ℚ :=
  if docScrollHeight - innerHeight ≤ 0 then 0
  else if smoothing then
    lerp prev (min (max (scrollTop / (docScrollHeight - innerHeight)) 0) 1) (1 / 10)
  else min (max (scrollTop / (docScrollHeight - innerHeight)) 0) 1

/-- C5 counterexample: the engine's scroll-driven `updateProgress` does not
compute the claimed clamped fraction. With elastic overscroll
(`scrollTop = -10`) on a 2000px document in a 1000px viewport it yields
-1/100 — outside [0,1] and different from the claimed clamp value 0 — and in
the degenerate case (document height = viewport height, scrollTop 0) it
yields NaN rather than 0. -/
theorem c5_engine_progress_counterexample :
    engineUpdateProgress 0 1000 1000 = JSVal.nan ∧
    engineUpdateProgress (-10) 2000 1000 = JSVal.num (-(1 / 100)) ∧
    specScrollFraction (-10) 2000 1000 = 0 ∧
    engineUpdateProgress (-10) 2000 1000 ≠
      JSVal.num (specScrollFraction (-10) 2000 1000) := by
  refine ⟨?_, ?_, ?_, ?_⟩
  · norm_num [engineUpdateProgress, jsDiv, jsMin1]
  · norm_num [engineUpdateProgress, jsDiv, jsMin1, min_def]
  · norm_num [specScrollFraction, clamp01, min_def, max_def]
  · norm_num [engineUpdateProgress, jsDiv, jsMin1, specScrollFraction, clamp01,
      min_def, max_def]

/-- C5 amended: it is the ProgressIndicator's `calculateScrollProgress` that
implements the claimed behaviour. With smoothing off its result is exactly
`clamp(scrollTop / (documentHeight - viewportHeight), 0, 1)`; in the
degenerate case (document height ≤ viewport height) it is 0, not a division
error; and — smoothed or not — it never leaves [0,1] provided the stored
previous value was in [0,1]. The engine's `updateProgress` only caps above
at 1, as the counterexample shows. -/
theorem c5_indicator_progress_clamped (prev scrollTop dh vh : ℚ) (smoothing : Bool)
    (h0 : 0 ≤ prev) (h1 : prev ≤ 1) :
    calculateScrollProgress prev false scrollTop dh vh = specScrollFraction scrollTop dh vh ∧
    0 ≤ calculateScrollProgress prev smoothing scrollTop dh vh ∧
    calculateScrollProgress prev smoothing scrollTop dh vh ≤ 1 ∧
    (dh - vh ≤ 0 → calculateScrollProgress prev smoothing scrollTop dh vh = 0) := by
  refine ⟨?_, ?_, ?_, ?_⟩
  · unfold calculateScrollProgress specScrollFraction clamp01
    by_cases h : dh - vh ≤ 0
    · rw [if_pos h, if_pos h]
    · rw [if_neg h, if_neg h]
      simp
  · unfold calculateScrollProgress
    have hn0 : (0 : ℚ) ≤ min (max (scrollTop / (dh - vh)) 0) 1 :=
      le_min (le_max_right _ 0) zero_le_one
    have hn1 : min (max (scrollTop / (dh - vh)) 0) 1 ≤ 1 := min_le_right _ 1
    split_ifs with h hsm
    · exact le_refl 0
    · unfold lerp
      nlinarith [hn0, hn1]
    · exact hn0
  · unfold calculateScrollProgress
    have hn0 : (0 : ℚ) ≤ min (max (scrollTop / (dh - vh)) 0) 1 :=
      le_min (le_max_right _ 0) zero_le_one
    have hn1 : min (max (scrollTop / (dh - vh)) 0) 1 ≤ 1 := min_le_right _ 1
    split_ifs with h hsm
    · exact zero_le_one
    · unfold lerp
      nlinarith [hn0, hn1]
    · exact hn1
  · intro h
    unfold calculateScrollProgress
    rw [if_pos h]

/-- Witness for the amended C5: with elastic overscroll on a real page the
un-smoothed indicator fraction equals the clamp (which is 0), stays inside
[0,1] when smoothed from a stored value of 1/2, and the degenerate case
yields 0. -/
theorem c5_indicator_progress_clamped_witness :
    calculateScrollProgress (1 / 2) false (-10) 2000 1000 =
      specScrollFraction (-10) 2000 1000 ∧
    0 ≤ calculateScrollProgress (1 / 2) true (-10) 2000 1000 ∧
    calculateScrollProgress (1 / 2) true (-10) 2000 1000 ≤ 1 ∧
    ((2000 : ℚ) - 1000 ≤ 0 → calculateScrollProgress (1 / 2) true (-10) 2000 1000 = 0) := by
  have h := c5_indicator_progress_clamped (1 / 2) (-10) 2000 1000 true
    (by norm_num) (by norm_num)
  have h' := c5_indicator_progress_clamped (1 / 2) (-10) 2000 1000 false
    (by norm_num) (by norm_num)
  exact ⟨h'.1, h.2.1, h.2.2.1, h.2.2.2⟩

/-- The value written by a frame of `animateCounter`:
`progress = Math.min(elapsed / duration, 1)`,
`easeOut = 1 - Math.pow(1 - progress, 3)`,
`Math.floor(startValue + (target - startValue) * easeOut)`. -/
def counterFrameValue (startValue targetValue : ℤ) (duration elapsed : ℚ) : ℤ :=
  ⌊(startValue : ℚ) + ((targetValue : ℚ) - (startValue : ℚ)) *
      (1 - (1 - min (elapsed / duration) 1) ^ 3)⌋

/-- The animation-frame loop of `animateCounterCSS` (and of the engine's
`animateCounter`, which is the special case `startValue = 0`,
`duration = 2000`): run over the given frame timestamps and return every
value written to the element's text, in order. A frame with progress < 1
writes the eased floor value and requests another frame; the completing
frame writes the eased value and then snaps the text to exactly the
target. -/
def animateCounterFrames (sv tv : ℤ) (duration startTime : ℚ) : List ℚ → List ℤ
  | [] => []
  | c :: rest =>
      if min ((c - startTime) / duration) 1 < 1 then
        counterFrameValue sv tv duration (c - startTime)
          :: animateCounterFrames sv tv duration startTime rest
      else [counterFrameValue sv tv duration (c - startTime), tv]

/-- The claim's frame formula: `t = elapsed/duration` clamped to [0,1],
value `floor(start + (target - start) * (1 - (1 - t)^3))`. -/
def specCounterValue (sv tv : ℤ) (duration elapsed : ℚ) : ℤ :=
  ⌊(sv : ℚ) + ((tv : ℚ) - (sv : ℚ)) *
      (1 - (1 - min (max (elapsed / duration) 0) 1) ^ 3)⌋

/-- The claim's run: the clamped frame formula on every intermediate frame,
then the exact target on the completing frame. -/
def specCounterRun (sv tv : ℤ) (duration startTime : ℚ) : List ℚ → List ℤ
  | [] => []
  | c :: rest =>
      if min (max ((c - startTime) / duration) 0) 1 < 1 then
        specCounterValue sv tv duration (c - startTime)
          :: specCounterRun sv tv duration startTime rest
      else [specCounterValue sv tv duration (c - startTime), tv]

/-- A run over at least one frame writes at least one value. -/
lemma animateCounterFrames_ne_nil (sv tv : ℤ) (duration startTime : ℚ)
    (c : ℚ) (rest : List ℚ) :
    animateCounterFrames sv tv duration startTime (c :: rest) ≠ [] := by
  unfold animateCounterFrames
  by_cases h : min ((c - startTime) / duration) 1 < 1
  · rw [if_pos h]
    exact List.cons_ne_nil _ _
  · rw [if_neg h]
    exact List.cons_ne_nil _ _

lemma getLast?_cons_of_ne_nil {α : Type} {l : List α} (h : l ≠ []) (a : α) :
    (a :: l).getLast? = l.getLast? := by
  cases l with
  | nil => exact absurd rfl h
  | cons b t => exact List.getLast?_cons_cons

/-- C7: the counter interpolation writes the claimed eased floor value on
every frame (the code's `min(t,1)` agrees with the claimed clamp because
frame timestamps are not earlier than the start), and whenever some frame
reaches the full duration the run terminates with the displayed text equal
to exactly the target integer, independent of the timing of the other
frames. -/
theorem c7_counter_interpolation (sv tv : ℤ) (duration startTime : ℚ)
    (times : List ℚ) (hdur : 0 < duration) (hts : ∀ c ∈ times, startTime ≤ c) :
    animateCounterFrames sv tv duration startTime times =
      specCounterRun sv tv duration startTime times ∧
    ((∃ c ∈ times, startTime + duration ≤ c) →
      (animateCounterFrames sv tv duration startTime times).getLast? = some tv) := by
  constructor
  · induction times with
    | nil => rfl
    | cons c rest ih =>
      have hc : startTime ≤ c := hts c (List.mem_cons_self c rest)
      have hnn : (0 : ℚ) ≤ (c - startTime) / duration :=
        div_nonneg (by linarith) (le_of_lt hdur)
      have hmax : max ((c - startTime) / duration) 0 = (c - startTime) / duration :=
        max_eq_left hnn
      have hval : specCounterValue sv tv duration (c - startTime) =
          counterFrameValue sv tv duration (c - startTime) := by
        unfold specCounterValue counterFrameValue
        rw [hmax]
      unfold animateCounterFrames specCounterRun
      rw [hmax, hval]
      by_cases h : min ((c - startTime) / duration) 1 < 1
      · rw [if_pos h, if_pos h]
        rw [ih (fun t ht => hts t (List.mem_cons_of_mem c ht))]
      · rw [if_neg h, if_neg h]
  · induction times with
    | nil =>
      intro hex
      rcases hex with ⟨c, hc, _⟩
      exact absurd hc (List.not_mem_nil c)
    | cons c rest ih =>
      intro hex
      unfold animateCounterFrames
      by_cases h : min ((c - startTime) / duration) 1 < 1
      · rw [if_pos h]
        have hcnot : ¬ startTime + duration ≤ c := by
          intro hcc
          have h1d : (1 : ℚ) ≤ (c - startTime) / duration :=
            (one_le_div hdur).mpr (by linarith)
          rw [min_eq_right h1d] at h
          exact lt_irrefl 1 h
        have hex' : ∃ x ∈ rest, startTime + duration ≤ x := by
          rcases hex with ⟨x, hx, hxd⟩
          rcases List.mem_cons.mp hx with rfl | hx'
          · exact absurd hxd hcnot
          · exact ⟨x, hx', hxd⟩
        rcases hex' with ⟨x, hx, hxd⟩
        have hrest := ih (fun t ht => hts t (List.mem_cons_of_mem c ht)) ⟨x, hx, hxd⟩
        cases rest with
        | nil => exact absurd hx (List.not_mem_nil x)
        | cons y t =>
          rw [getLast?_cons_of_ne_nil
            (animateCounterFrames_ne_nil sv tv duration startTime y t) _]
          exact hrest
      · rw [if_neg h]
        rfl

/-- Witness for C7: counting from 0 to 100 over 2000ms with frames at 500ms
and 2500ms, the writes follow the claimed formula and the final text is
exactly 100. -/
theorem c7_counter_interpolation_witness :
    animateCounterFrames 0 100 2000 0 [500, 2500] =
      specCounterRun 0 100 2000 0 [500, 2500] ∧
    (animateCounterFrames 0 100 2000 0 [500, 2500]).getLast? = some 100 := by
  have h := c7_counter_interpolation 0 100 2000 0 [500, 2500]
    (by norm_num) (by intro c hc; rcases List.mem_cons.mp hc with rfl | hc
                      · norm_num
                      · rcases List.mem_cons.mp hc with rfl | hc
                        · norm_num
                        · exact absurd hc (List.not_mem_nil c))
  refine ⟨h.1, h.2 ⟨2500, ?_, by norm_num⟩⟩
  simp

/-- The DOM state of an animated element that the AnimationController
touches: inline opacity and transform styles, class list, and text content
(for counters). -/
structure ElemState where
  opacity : Option String
  transform : Option String
  classes : List String
  text : Option ℤ
  deriving DecidableEq, Repr

/-- `classList.add`: append the class unless already present. -/
def addClass (cs : List String) (c : String) : List String :=
  if cs.contains c then cs else cs ++ [c]

/-- `showElementImmediately`: `element.style.opacity = '1';
element.style.transform = 'none'; element.classList.add('visible')`. -/
def showElementImmediately (e : ElemState) : ElemState :=
  { e with opacity := some "1", transform := some "none",
           classes := addClass e.classes "visible" }

/-- AnimationController flags relevant to reduced motion. -/
structure AnimControllerState where
  reducedMotion : Bool
  respectReducedMotion : Bool
  isGSAPLoaded : Bool
  deriving DecidableEq, Repr

/-- `shouldSkipAnimation`:
`this.reducedMotion && this.options.respectReducedMotion`. -/
def shouldSkipAnimation (c : AnimControllerState) : Bool :=
  c.reducedMotion && c.respectReducedMotion

/-- The dispatch result of `animateIn`: the final state was applied at once
(reduced motion), or the element was handed to a GSAP tween, or to the CSS
transition fallback. -/
inductive AnimAction where
  | shownImmediately : ElemState → AnimAction
  | gsapTween : ElemState → AnimAction
  | cssTransition : ElemState → AnimAction
  deriving DecidableEq, Repr

/-- `animateIn(element, type)`: skip path first, then GSAP, then CSS
fallback. -/
def animateIn (c : AnimControllerState) (e : ElemState) : AnimAction :=
  if shouldSkipAnimation c then AnimAction.shownImmediately (showElementImmediately e)
  else if c.isGSAPLoaded then AnimAction.gsapTween e
  else AnimAction.cssTransition e

/-- `animateCounter(element, target)` of the AnimationController (CSS
fallback path, GSAP absent): under reduced motion the text is set directly
to the target and the function returns a resolved promise — no
animation-frame callbacks run; otherwise the frame loop of
`animateCounterCSS` runs over the supplied frame timestamps. Returns the
final element state together with the number of animation-frame callbacks
executed. -/
def animateCounterCtrl (c : AnimControllerState) (e : ElemState) (tv : ℤ)
    (duration startTime : ℚ) (times : List ℚ) : ElemState × ℕ :=
  if shouldSkipAnimation c then ({ e with text := some tv }, 0)
  else
    ({ e with text :=
        match (animateCounterFrames 0 tv duration startTime times).getLast? with
        | some v => some v
        | none => e.text },
     countFramesRun duration startTime times)
where
  /-- Number of frame callbacks the loop executes before stopping. -/
  countFramesRun (duration startTime : ℚ) : List ℚ → ℕ
    | [] => 0
    | c' :: rest =>
        if min ((c' - startTime) / duration) 1 < 1 then
          1 + countFramesRun duration startTime rest
        else 1

/-- The scheduled class is present after `addClass`. -/
lemma addClass_contains (cs : List String) (c : String) :
    (addClass cs c).contains c = true := by
  unfold addClass
  by_cases h : cs.contains c = true
  · rw [if_pos h]
    exact h
  · rw [if_neg h]
    simp

/-- C8: when the user's reduced-motion preference is active and the
controller is configured to honour it, `animateIn` applies the final state
immediately for every element and animation path — opacity "1", no
transform, the `visible` class set — and `animateCounter` writes the target
directly, with zero animation-frame callbacks executed in either case. -/
theorem c8_reduced_motion (c : AnimControllerState) (e e2 : ElemState) (tv : ℤ)
    (duration startTime : ℚ) (times : List ℚ)
    (h1 : c.reducedMotion = true) (h2 : c.respectReducedMotion = true) :
    animateIn c e = AnimAction.shownImmediately (showElementImmediately e) ∧
    (showElementImmediately e).opacity = some "1" ∧
    (showElementImmediately e).transform = some "none" ∧
    (showElementImmediately e).classes.contains "visible" = true ∧
    animateCounterCtrl c e2 tv duration startTime times = ({ e2 with text := some tv }, 0) := by
  have hskip : shouldSkipAnimation c = true := by
    unfold shouldSkipAnimation
    rw [h1, h2]
    rfl
  refine ⟨?_, rfl, rfl, addClass_contains e.classes "visible", ?_⟩
  · unfold animateIn
    rw [if_pos hskip]
  · unfold animateCounterCtrl
    rw [if_pos hskip]

/-- A concrete element and controller state for the C8 witness. -/
def c8DemoElem : ElemState :=
  { opacity := none, transform := none, classes := ["stat-number"], text := none }

/-- A controller with reduced motion active and honoured. -/
def c8DemoCtrl : AnimControllerState :=
  { reducedMotion := true, respectReducedMotion := true, isGSAPLoaded := false }

/-- Witness for C8: on the concrete element, reduced motion shows it
immediately and sets the counter text straight to 2500 with zero frames. -/
theorem c8_reduced_motion_witness :
    animateIn c8DemoCtrl c8DemoElem =
      AnimAction.shownImmediately (showElementImmediately c8DemoElem) ∧
    (showElementImmediately c8DemoElem).opacity = some "1" ∧
    (showElementImmediately c8DemoElem).transform = some "none" ∧
    (showElementImmediately c8DemoElem).classes.contains "visible" = true ∧
    animateCounterCtrl c8DemoCtrl c8DemoElem 2500 2000 0 [100, 300] =
      ({ c8DemoElem with text := some 2500 }, 0) :=
  c8_reduced_motion c8DemoCtrl c8DemoElem c8DemoElem 2500 2000 0 [100, 300] rfl rfl

/-- A registered event callback of the engine's on/off/emit channel,
abstracted to an id and whether invoking it throws. -/
structure Callback where
  cbId : ℕ
  throws : Bool
  deriving DecidableEq, Repr

/-- The body of `emit`: `callbacks.forEach(cb => { try { cb(data) } catch
(error) { console.error(...) } })`. Returns the ids invoked, in order, and
the ids whose invocation threw (each caught and logged, never
propagated). -/
def emitRun (cbs : List Callback) : List ℕ × List ℕ :=
  cbs.foldl (fun acc cb =>
    (acc.1 ++ [cb.cbId], if cb.throws then acc.2 ++ [cb.cbId] else acc.2)) ([], [])

/-- `on(event, callback)`: append to the event's callback list, creating the
list when the event is new. -/
def onRegister (m : List (String × List Callback)) (ev : String) (cb : Callback) :
    List (String × List Callback) :=
  if m.any (fun p => p.1 == ev) then
    m.map (fun p => if p.1 == ev then (p.1, p.2 ++ [cb]) else p)
  else m ++ [(ev, [cb])]

/-- `emit(event, data)`: run the callbacks registered for the event, if
any. -/
def emitEvent (m : List (String × List Callback)) (ev : String) : List ℕ × List ℕ :=
  match m.find? (fun p => p.1 == ev) with
  | some p => emitRun p.2
  | none => ([], [])

/-- Accumulator form of the `emit` loop. -/
lemma emitRun_aux (cbs : List Callback) :
    ∀ acc : List ℕ × List ℕ,
      cbs.foldl (fun acc cb =>
        (acc.1 ++ [cb.cbId], if cb.throws then acc.2 ++ [cb.cbId] else acc.2)) acc =
      (acc.1 ++ cbs.map Callback.cbId,
       acc.2 ++ (cbs.filter Callback.throws).map Callback.cbId) := by
  induction cbs with
  | nil => intro acc; simp
  | cons cb rest ih =>
    intro acc
    rw [List.foldl_cons, ih]
    by_cases h : cb.throws = true
    · simp [h, List.filter_cons, List.append_assoc]
    · simp [h, List.filter_cons, List.append_assoc]

/-- A registration for a different event name leaves the head entry alone. -/
lemma onRegister_cons_ne (p : String × List Callback)
    (m : List (String × List Callback)) (ev : String) (cb : Callback)
    (h : (p.1 == ev) = false) :
    onRegister (p :: m) ev cb = p :: onRegister m ev cb := by
  unfold onRegister
  rw [List.any_cons, h]
  simp only [Bool.false_or]
  by_cases hm : m.any (fun q => q.1 == ev) = true
  · rw [if_pos hm, if_pos hm, List.map_cons, h]
    simp
  · rw [if_neg hm, if_neg hm]
    rfl

/-- Registration appends the callback to exactly its event's list. -/
lemma find?_onRegister (ev : String) (cb : Callback) :
    ∀ m : List (String × List Callback),
      ((onRegister m ev cb).find? (fun p => p.1 == ev)).map (·.2) =
        some ((((m.find? (fun p => p.1 == ev)).map (·.2)).getD []) ++ [cb]) := by
  intro m
  induction m with
  | nil =>
    unfold onRegister
    simp [List.find?_cons]
  | cons p rest ih =>
    by_cases hp : (p.1 == ev) = true
    · unfold onRegister
      rw [List.any_cons, hp]
      simp only [Bool.true_or, if_true, List.map_cons, if_pos hp]
      simp [List.find?_cons, hp]
    · have hp' : (p.1 == ev) = false := by
        cases hb : (p.1 == ev) with
        | false => rfl
        | true => exact absurd hb hp
      rw [onRegister_cons_ne p rest ev cb hp']
      rw [List.find?_cons_of_neg _ (by simp [hp']), List.find?_cons_of_neg _ (by simp [hp'])]
      exact ih

/-- C10: `emit` invokes every callback registered for the event, in
registration order (`on` appends, so the invoked-id list is exactly the
registered list), and a callback that throws is caught and logged without
stopping the remaining callbacks — the invoked list is independent of which
callbacks throw. -/
theorem c10_emit_order_and_isolation (cbs : List Callback)
    (m : List (String × List Callback)) (ev : String) (cb : Callback) :
    (emitRun cbs).1 = cbs.map Callback.cbId ∧
    (emitRun cbs).2 = (cbs.filter Callback.throws).map Callback.cbId ∧
    ((onRegister m ev cb).find? (fun p => p.1 == ev)).map (·.2) =
      some ((((m.find? (fun p => p.1 == ev)).map (·.2)).getD []) ++ [cb]) := by
  refine ⟨?_, ?_, find?_onRegister ev cb m⟩
  · unfold emitRun
    rw [emitRun_aux cbs ([], [])]
    simp
  · unfold emitRun
    rw [emitRun_aux cbs ([], [])]
    simp

end Diagrama
